import Mathlib

/-!
Verification development for the pypatstat ETL core (nestauk/pypatstat).

Shallow embedding of the source files under `pypatstat/etl/`:
`data_loader.py`, `utils.py`, `schema_maker.py`.  Python scalars are
modelled by `PyVal`, CSV row records by association lists; machine-level
concerns (actual network and database I/O) are abstracted to the values
they carry: the database table is modelled as the list of parameter
objects handed to the bulk insert, and the existing primary keys of a
table are a parameter standing for what `session.query(*fields)`
returns.  Python sets are modelled as duplicate-free lists with
membership-based difference.
-/

deriving instance DecidableEq for Except

/-- A Python scalar value as it appears in a row record, a field length
or a default value: a string, an int, or `None`. -/
inductive PyVal where
  | vstr (s : String)
  | vint (n : Int)
  | vnone
deriving DecidableEq, Repr

/-- Python `str(...)` on the scalars we model (`str(None) = "None"`). -/
def pyStr : PyVal → String
  | PyVal.vstr s => s
  | PyVal.vint n => toString n
  | PyVal.vnone => "None"

/-- A row record: mapping from field name to scalar, as produced by
`iterchunks` in `data_loader.py` (a Python dict per CSV row). -/
abbrev Row := List (String × PyVal)

/-- `row[k]` for a row record.  The CSV reader gives every row all of
the table's columns, so the key is always present for the rows we
consider; a genuinely missing key would be a Python `KeyError`. -/
def rowGet (row : Row) (k : String) : PyVal :=
  (row.lookup k).getD PyVal.vnone

/-- Python `p in s` (substring containment) over char lists. -/
def charsContains (needle : List Char) : List Char → Bool
  | [] => needle.isPrefixOf ([] : List Char)
  | c :: cs => needle.isPrefixOf (c :: cs) || charsContains needle cs

/-- Python `needle in hay` for strings. -/
def strContains (hay needle : String) : Bool :=
  charsContains needle.toList hay.toList

/-- Python `s.startswith(p)` for strings. -/
def pyStartsWith (s p : String) : Bool :=
  p.toList.isPrefixOf s.toList

/-- Python `s.lower()` (the identifiers involved are ASCII). -/
def strLower (s : String) : String := String.mk (s.toList.map Char.toLower)

/-- Python `s.upper()`. -/
def strUpper (s : String) : String := String.mk (s.toList.map Char.toUpper)

/-- One primary-key column of an ORM table class: its name and whether
`pkey.type.python_type is str` holds for it. -/
structure PKCol where
  name : String
  pythonTypeIsStr : Bool
deriving DecidableEq, Repr

/-- The part of a SQLAlchemy ORM table class that `data_loader.py`
inspects: `_class.__table__.primary_key.columns`, in declared order. -/
structure TableClass where
  pkeyCols : List PKCol
deriving DecidableEq, Repr

/-- A primary-key tuple. -/
abbrev PK := List PyVal

/-- `make_pk` (data_loader.py lines 72-78): the primary-key tuple of a
row, one component per declared key column, with `str(...)` applied to
a component exactly when the column's `python_type` is `str`. -/
def make_pk (row : Row) (cls : TableClass) : List PyVal :=
  cls.pkeyCols.map (fun pkey =>
    if pkey.pythonTypeIsStr then PyVal.vstr (pyStr (rowGet row pkey.name))
    else rowGet row pkey.name)

/-- The loop of `pk_chunks` (data_loader.py lines 81-90), bounded by
explicit fuel so that the recursion is structural.  Each iteration
fetches the page `l.take chunksize` of the remaining keys (the query
slice `limit(chunksize).offset(offset)`), yields it, and loops again
exactly when the page was full (`while offset == 0 or
len(pks) == chunksize`; the first iteration always runs).  The fuel
case 0 is never reached when the fuel exceeds the number of
iterations. -/
def pk_chunks_go (chunksize : Nat) : Nat → List PK → List (List PK)
  | 0, l => [l.take chunksize]
  | Nat.succ fuel, l =>
    if (l.take chunksize).length = chunksize ∧ 0 < chunksize then
      l.take chunksize :: pk_chunks_go chunksize fuel (l.drop chunksize)
    else
      [l.take chunksize]

/-- `pk_chunks` (data_loader.py lines 81-90): page through the table's
existing primary keys.  `l` stands for the full result sequence of
`session.query(*fields)`.  `l.length + 1` iterations of fuel always
suffice for a positive chunk size.  (For `chunksize = 0` the Python
generator would loop forever re-yielding the empty page; the callers
use the default `chunksize = 100000` and the theorems below are stated
for positive chunk sizes.) -/
def pk_chunks (chunksize : Nat) (l : List PK) : List (List PK) :=
  pk_chunks_go chunksize (l.length + 1) l

/-- An object handed to `conn.execute(_class.__table__.insert(), rows)`:
either a row dict (the intended parameter set) or -- because the
comprehension at data_loader.py line 126 evaluates `rows` (the whole
batch list) instead of the loop variable `row` -- the entire batch
list itself. -/
inductive DBItem where
  | row (r : Row)
  | batch (rs : List Row)
deriving DecidableEq, Repr

/-- `write_to_db` (data_loader.py lines 93-138), data path only: DB and
table creation are external side effects, and this function returns
the list of objects passed to the bulk insert.  With `filter_pks` set,
the code builds `pks = [make_pk(row, _class) for row in rows]`,
`new_pks = set(pks)` minus every page of `pk_chunks(session, _class)`
(default page size 100000), and then the comprehension
`rows = [rows for pk, row in zip(pks, rows) if pk in new_pks]` -- note
`rows`, not `row`: each element kept is the entire original batch
list. -/
def write_to_db (storedPks : List PK) (cls : TableClass) (rows : List Row)
    (filter_pks : Bool) : List DBItem :=
  if filter_pks then
    let pks : List PK := rows.map (fun row => make_pk row cls)
    let new_pks : List PK :=
      (pk_chunks 100000 storedPks).foldl
        (fun acc page => acc.filter (fun pk => decide (pk ∉ page)))
        pks.dedup
    ((pks.zip rows).filter (fun pr => decide (pr.1 ∈ new_pks))).map
      (fun _ => DBItem.batch rows)
  else
    rows.map DBItem.row

/-- The primary-key tuples of the actual row dicts among the inserted
objects (batch-list objects carry no row key of their own). -/
def insertedRowKeys (items : List DBItem) (cls : TableClass) : List PK :=
  items.filterMap (fun it =>
    match it with
    | DBItem.row r => some (make_pk r cls)
    | DBItem.batch _ => none)

/-- The names bound at module level by the import statements of
`data_loader.py` (lines 1-14).  Note that `time` is not among them. -/
def data_loader_imported_names : List String :=
  ["login", "_zipfiles_on_pages", "files_in_zipfile", "generate_schema",
   "INDEX_DOC_STR", "locate", "create_engine", "OperationalError",
   "sessionmaker", "database_exists", "create_database", "logging",
   "BytesIO", "pd"]

/-- Whether the name `time` is bound in `data_loader.py`'s module
namespace (it is not: there is no `import time` in the file). -/
def timeImported : Bool := decide ("time" ∈ data_loader_imported_names)

/-- Outcome of `try_until_allowed`: the wrapped call's value, an
escaped `NameError` (from evaluating `time.sleep` with `time` unbound),
or fuel exhaustion standing for the `while True` loop still running. -/
inductive TryOutcome (α : Type) where
  | ok (v : α)
  | nameErrorRaised
  | fuelOut
deriving DecidableEq, Repr

/-- `try_until_allowed` (data_loader.py lines 54-69).  `f k` is the
outcome of the `k`-th call of the wrapped function: `Except.error ()`
models it raising `OperationalError`, `Except.ok v` models it
returning `v`.  On an `OperationalError` the handler logs and then
evaluates `time.sleep(5)`; since `time` is not an imported name of the
module, that evaluation raises `NameError`, which the
`except OperationalError` clause does not catch.  The `fuel` argument
bounds the unbounded `while True` loop for totality only. -/
def try_until_allowed_loop {α : Type} (f : Nat → Except Unit α) :
    Nat → Nat → TryOutcome α
  | fuel, k =>
    match f k with
    | Except.ok v => TryOutcome.ok v
    | Except.error _ =>
      if timeImported then
        match fuel with
        | 0 => TryOutcome.fuelOut
        | Nat.succ fuel' => try_until_allowed_loop f fuel' (k + 1)
      else TryOutcome.nameErrorRaised

/-- `try_until_allowed` with the call counter first and the loop fuel
second (see `try_until_allowed_loop` for the loop itself). -/
def try_until_allowed {α : Type} (f : Nat → Except Unit α) (k fuel : Nat) :
    TryOutcome α :=
  try_until_allowed_loop f fuel k

/-- The parameter names of `utils.files_in_zipfile` (utils.py line 59):
`def files_in_zipfile(bio, skip_table_prefixes=[], yield_zipfile_too=False)`. -/
def files_in_zipfile_params : List String :=
  ["bio", "skip_table_prefixes", "yield_zipfile_too"]

/-- Errors observable from `zipfile_to_db`. -/
inductive ZErr where
  | typeErrorUnexpectedKeyword (kw : String)
deriving DecidableEq, Repr

/-- The file selection of `utils.files_in_zipfile` (utils.py lines
67-70): a nested file is yielded unless its name starts with one of the
configured prefixes; matching files are skipped before anything is
done with them. -/
def files_in_zipfile_select (files : List String)
    (skip_table_prefixes : List String) : List String :=
  files.filter (fun fname =>
    !(skip_table_prefixes.any (fun p => pyStartsWith fname p)))

/-- The per-file state machine in the body of `zipfile_to_db`
(data_loader.py lines 151-170): `start` begins as
`restart_filename is None`; for each file, `restarting` is
`(not start) and restart_filename in fname` (the `in` test is
unreachable when `restart_filename` is `None`, since `not start` is
false then), a restarting file flips `start` on, files before the
restart point are skipped, and a processed file is loaded with
`filter_pks=restarting`.  Returns the processed files with their
`filter_pks` flag, in order. -/
def zipfile_loop_go (restart_filename : Option String) :
    List String → Bool → List (String × Bool)
  | [], _ => []
  | fname :: rest, start =>
    let restarting := !start && (match restart_filename with
                                 | some r => strContains fname r
                                 | none => false)
    let start' := if !start && restarting then true else start
    if !start' then zipfile_loop_go restart_filename rest start'
    else (fname, restarting) :: zipfile_loop_go restart_filename rest start'

/-- `zipfile_to_db` (data_loader.py lines 141-171).  Its file loop is
`for fname, f, zf in files_in_zipfile(zipfile, skip_fnames=skip_fnames,
yield_zipfile_too=True)`.  Python binds keyword arguments against the
callee's parameter list when the call is made, so the call only
proceeds if `skip_fnames` is a parameter name of
`utils.files_in_zipfile`; otherwise it raises
`TypeError: ... got an unexpected keyword argument` before any file is
yielded.  On success the loop would run the restart state machine over
the selected files. -/
def zipfile_to_db (files : List String) (skip_fnames : List String)
    (restart_filename : Option String) : Except ZErr (List (String × Bool)) :=
  if "skip_fnames" ∈ files_in_zipfile_params then
    Except.ok (zipfile_loop_go restart_filename
      (files_in_zipfile_select files skip_fnames) restart_filename.isNone)
  else
    Except.error (ZErr.typeErrorUnexpectedKeyword "skip_fnames")

/-- A one-integer-key table class (a table whose key column has a
numeric `python_type`). -/
def clsInt : TableClass := TableClass.mk [PKCol.mk "id" false]

/-- A one-row batch for `clsInt`. -/
def rowOne : Row := [("id", PyVal.vint 1)]

/-- A table class with two string-typed key columns. -/
def clsPair : TableClass := TableClass.mk [PKCol.mk "a" true, PKCol.mk "b" true]

/-- A row whose full key tuple is `("", "")`. -/
def rowBlank : Row := [("a", PyVal.vstr ""), ("b", PyVal.vstr "")]

/-- A table class with two integer-typed key columns. -/
def clsPairInt : TableClass :=
  TableClass.mk [PKCol.mk "a" false, PKCol.mk "b" false]

/-- A row whose full key tuple is `(0, 0)`. -/
def rowZero : Row := [("a", PyVal.vint 0), ("b", PyVal.vint 0)]

/-- A wrapped operation that raises `OperationalError` on its first
call and would succeed from the second call on. -/
def fOnceErr : Nat → Except Unit Int :=
  fun k => if k == 0 then Except.error () else Except.ok 42

/-- A wrapped operation that always succeeds with 7. -/
def fAlwaysOk : Nat → Except Unit Int := fun _ => Except.ok 7

/-- A wrapped operation that always raises `OperationalError`. -/
def fAlwaysErr : Nat → Except Unit Int := fun _ => Except.error ()

/-- Claim C1 (code bug): with deduplication enabled and an empty key
store, a fresh one-row batch should cause exactly that row to be
inserted; instead the comprehension at data_loader.py line 126 keeps
`rows` -- the entire batch list -- once per surviving key, so the
insert receives the whole-batch object and not the surviving row. -/
theorem write_to_db_filter_inserts_whole_batch :
    write_to_db [] clsInt [rowOne] true = [DBItem.batch [rowOne]] ∧
    write_to_db [] clsInt [rowOne] true ≠ [DBItem.row rowOne] := by
  constructor
  · decide
  · decide

/-- Claim C2 counterexample: a row whose full primary-key tuple is
`("", "")` (and likewise `(0, 0)`) is NOT dropped before insert --
`write_to_db` with `filter_pks=False` passes it straight to the bulk
insert; no null/invalid-key filter exists in the code. -/
theorem write_to_db_null_key_row_inserted :
    write_to_db [] clsPair [rowBlank] false = [DBItem.row rowBlank] ∧
    write_to_db [] clsPairInt [rowZero] false = [DBItem.row rowZero] := by
  constructor
  · decide
  · decide

/-- Claim C2 (amended): `write_to_db` applies no null/invalid-key
filter.  With `filter_pks=False` every row of the batch, whatever its
key tuple, is passed to the insert unchanged; with `filter_pks=True`
an all-blank or all-zero key participates in the stored-key
subtraction like any other key, so against an empty store such a row
still produces an insert. -/
theorem write_to_db_no_null_filter :
    (∀ (storedPks : List PK) (cls : TableClass) (rows : List Row),
      write_to_db storedPks cls rows false = rows.map DBItem.row) ∧
    write_to_db [] clsPair [rowBlank] true ≠ [] ∧
    write_to_db [] clsPairInt [rowZero] true ≠ [] := by
  refine ⟨fun storedPks cls rows => rfl, by decide, by decide⟩

/-- Claim C4 (code bug): already the first deduplicating load of a
fresh one-row batch inserts no row object at all (it inserts the
whole-batch object produced by the line-126 slip), so no primary key
is ever inserted exactly once as a row; loading the batch twice cannot
satisfy the claimed once-per-key property. -/
theorem write_to_db_double_load_inserts_no_row_keys :
    write_to_db [] clsInt [rowOne] true ≠ [] ∧
    insertedRowKeys (write_to_db [] clsInt [rowOne] true) clsInt = [] := by
  constructor
  · decide
  · decide

/-- Claim C3 (code bug): calling `zipfile_to_db` on an archive with
files A, B, C and restart marker B raises
`TypeError: files_in_zipfile() got an unexpected keyword argument`
(the callee's parameter is `skip_table_prefixes`, the caller passes
`skip_fnames`), so nothing is processed at all; the loop body itself
(modelled by `zipfile_loop_go`) does implement the claimed semantics:
A skipped, B with dedup, C without, and with no marker every file
without dedup. -/
theorem zipfile_to_db_restart_window_typeerror :
    zipfile_to_db ["tls201_part1.csv", "tls202_part1.csv", "tls203_part1.csv"]
        [] (some "tls202_part1.csv") =
      Except.error (ZErr.typeErrorUnexpectedKeyword "skip_fnames") ∧
    zipfile_loop_go (some "tls202_part1.csv")
        ["tls201_part1.csv", "tls202_part1.csv", "tls203_part1.csv"] false =
      [("tls202_part1.csv", true), ("tls203_part1.csv", false)] ∧
    zipfile_loop_go none
        ["tls201_part1.csv", "tls202_part1.csv", "tls203_part1.csv"] true =
      [("tls201_part1.csv", false), ("tls202_part1.csv", false),
       ("tls203_part1.csv", false)] := by
  refine ⟨by decide, by decide, by decide⟩

/-- Claim C5 (code bug): with a configured skip list the very same
`TypeError` aborts `zipfile_to_db` before a single nested file is
yielded, so the skip list never takes effect; the skip filter itself
(utils.py lines 67-70, modelled by `files_in_zipfile_select`) would
drop exactly the prefix-matching files before table resolution. -/
theorem zipfile_to_db_skip_list_typeerror :
    zipfile_to_db ["tls201_part1.csv", "tls202_part1.csv"] ["tls201"] none =
      Except.error (ZErr.typeErrorUnexpectedKeyword "skip_fnames") ∧
    files_in_zipfile_select ["tls201_part1.csv", "tls202_part1.csv"]
        ["tls201"] = ["tls202_part1.csv"] := by
  refine ⟨by decide, by decide⟩

/-- Claim C6 counterexample: a wrapped operation that raises
`OperationalError` once and would succeed on the retry is not
recovered by `try_until_allowed`: the handler evaluates `time.sleep(5)`
with `time` unbound in `data_loader.py`, so the first
`OperationalError` escapes as an uncaught `NameError` instead of being
retried. -/
theorem try_until_allowed_raises_nameerror :
    try_until_allowed fOnceErr 0 10 = TryOutcome.nameErrorRaised ∧
    try_until_allowed fOnceErr 0 10 ≠ TryOutcome.ok 42 := by
  refine ⟨by decide, by decide⟩

/-- Claim C6 (amended): `time` is not an imported name of
`data_loader.py`; `try_until_allowed` returns the wrapped value when
the call succeeds, and on an `OperationalError` it raises `NameError`
out of the handler -- no retry, no delay, and hence no retry cap is
ever reached (none exists: the loop is `while True`). -/
theorem try_until_allowed_spec :
    timeImported = false ∧
    (∀ (f : Nat → Except Unit Int) (k fuel : Nat) (v : Int),
      f k = Except.ok v → try_until_allowed f k fuel = TryOutcome.ok v) ∧
    (∀ (f : Nat → Except Unit Int) (k fuel : Nat) (e : Unit),
      f k = Except.error e →
        try_until_allowed f k fuel = TryOutcome.nameErrorRaised) := by
  refine ⟨by decide, ?_, ?_⟩
  · intro f k fuel v hv
    cases fuel with
    | zero => simp [try_until_allowed, try_until_allowed_loop, hv]
    | succ n => simp [try_until_allowed, try_until_allowed_loop, hv]
  · intro f k fuel e hv
    cases fuel with
    | zero =>
      simp [try_until_allowed, try_until_allowed_loop, hv,
        show timeImported = false from by decide]
    | succ n =>
      simp [try_until_allowed, try_until_allowed_loop, hv,
        show timeImported = false from by decide]

/-- Claim C6 witness: the amended statement at concrete wrapped
operations. -/
theorem try_until_allowed_spec_witness :
    try_until_allowed fAlwaysOk 0 3 = TryOutcome.ok 7 ∧
    try_until_allowed fAlwaysErr 0 3 = TryOutcome.nameErrorRaised :=
  ⟨try_until_allowed_spec.2.1 fAlwaysOk 0 3 7 rfl,
   try_until_allowed_spec.2.2 fAlwaysErr 0 3 () rfl⟩

/-- A table with a single string-typed key column whose row value is
the string a reader would produce when it kept the column textual. -/
def cls007 : TableClass := TableClass.mk [PKCol.mk "id" true]

/-- A row holding the zero-padded code as a string. -/
def row007 : Row := [("id", PyVal.vstr "007")]

/-- A row holding an integer in a declared-string key column. -/
def rowInt7 : Row := [("id", PyVal.vint 7)]

/-- Claim C9: `make_pk` produces the key tuple in the declared
key-column order -- component `i` comes from key column `i` -- and a
component is coerced with `str(...)` exactly when its column's
`python_type` is `str`, while non-string columns keep the
reader-supplied value unchanged. -/
theorem make_pk_spec (row : Row) (cls : TableClass) :
    (make_pk row cls).length = cls.pkeyCols.length ∧
    ∀ (i : Nat) (h : i < cls.pkeyCols.length),
      (make_pk row cls)[i]? =
        some (if (cls.pkeyCols[i]).pythonTypeIsStr then
                PyVal.vstr (pyStr (rowGet row (cls.pkeyCols[i]).name))
              else rowGet row (cls.pkeyCols[i]).name) := by
  constructor
  · simp [make_pk]
  · intro i h
    simp [make_pk, List.getElem?_map, List.getElem?_eq_getElem h]

/-- Claim C9 witness: a declared-string key column turns the stored
string "007" into itself and the integer 7 into the string "7", and an
integer-typed key column keeps its integer value. -/
theorem make_pk_spec_witness :
    (make_pk row007 cls007)[0]? = some (PyVal.vstr "007") ∧
    (make_pk rowInt7 cls007)[0]? = some (PyVal.vstr "7") ∧
    (make_pk rowOne clsInt)[0]? = some (PyVal.vint 1) := by
  refine ⟨?_, ?_, ?_⟩
  · have h := (make_pk_spec row007 cls007).2 0 (by decide)
    rw [h]; decide
  · have h := (make_pk_spec rowInt7 cls007).2 0 (by decide)
    rw [h]; decide
  · have h := (make_pk_spec rowOne clsInt).2 0 (by decide)
    rw [h]; decide

/-- The pages of `pk_chunks_go` are never empty as a list of pages. -/
theorem pk_chunks_go_ne_nil (cs : Nat) (fuel : Nat) (l : List PK) :
    pk_chunks_go cs fuel l ≠ [] := by
  cases fuel with
  | zero => simp [pk_chunks_go]
  | succ n =>
    rw [pk_chunks_go]
    split <;> simp

/-- Every page of `pk_chunks_go` has at most `cs` keys. -/
theorem pk_chunks_go_page_le (cs : Nat) :
    ∀ (fuel : Nat) (l : List PK) (p : List PK),
      p ∈ pk_chunks_go cs fuel l → p.length ≤ cs := by
  intro fuel
  induction fuel with
  | zero =>
    intro l p hp
    simp [pk_chunks_go] at hp
    subst hp
    simp [List.length_take]
  | succ n ih =>
    intro l p hp
    rw [pk_chunks_go] at hp
    by_cases hc : (l.take cs).length = cs ∧ 0 < cs
    · rw [if_pos hc] at hp
      rcases List.mem_cons.mp hp with h | h
      · subst h; exact le_of_eq hc.1
      · exact ih _ _ h
    · rw [if_neg hc] at hp
      simp at hp
      subst hp
      simp [List.length_take]

/-- With enough fuel, concatenating the pages of `pk_chunks_go` gives
back exactly the stored key sequence. -/
theorem pk_chunks_go_flatten (cs : Nat) (hcs : 0 < cs) :
    ∀ (fuel : Nat) (l : List PK), l.length < fuel →
      (pk_chunks_go cs fuel l).flatten = l := by
  intro fuel
  induction fuel with
  | zero => intro l hl; omega
  | succ n ih =>
    intro l hl
    rw [pk_chunks_go]
    by_cases hc : (l.take cs).length = cs ∧ 0 < cs
    · rw [if_pos hc]
      have hcl : cs ≤ l.length := by
        have h1 := hc.1
        rw [List.length_take] at h1
        omega
      have hdrop : (l.drop cs).length < n := by
        rw [List.length_drop]
        omega
      rw [List.flatten_cons, ih _ hdrop, List.take_append_drop]
    · rw [if_neg hc]
      have hlt : l.length < cs := by
        rcases Decidable.not_and_iff_or_not.mp hc with h | h
        · rw [List.length_take] at h
          omega
        · omega
      simp [List.take_of_length_le (le_of_lt hlt)]

/-- With enough fuel, `pk_chunks_go` yields exactly
`l.length / cs + 1` pages. -/
theorem pk_chunks_go_length (cs : Nat) (hcs : 0 < cs) :
    ∀ (fuel : Nat) (l : List PK), l.length < fuel →
      (pk_chunks_go cs fuel l).length = l.length / cs + 1 := by
  intro fuel
  induction fuel with
  | zero => intro l hl; omega
  | succ n ih =>
    intro l hl
    rw [pk_chunks_go]
    by_cases hc : (l.take cs).length = cs ∧ 0 < cs
    · rw [if_pos hc]
      have hcl : cs ≤ l.length := by
        have h1 := hc.1
        rw [List.length_take] at h1
        omega
      have hdrop : (l.drop cs).length < n := by
        rw [List.length_drop]
        omega
      rw [List.length_cons, ih _ hdrop, List.length_drop,
        Nat.div_eq_sub_div hcs hcl]
    · rw [if_neg hc]
      have hlt : l.length < cs := by
        rcases Decidable.not_and_iff_or_not.mp hc with h | h
        · rw [List.length_take] at h
          omega
        · omega
      simp [Nat.div_eq_of_lt hlt]

/-- Dropping the head of a cons keeps the last element when the tail
is nonempty. -/
theorem getLast?_cons_of_ne_nil {α : Type} (a : α) (l : List α)
    (h : l ≠ []) : (a :: l).getLast? = l.getLast? := by
  cases l with
  | nil => exact absurd rfl h
  | cons b t => exact List.getLast?_cons_cons

/-- With enough fuel, when the page size divides the number of stored
keys the final page yielded is the extra empty page. -/
theorem pk_chunks_go_getLast (cs : Nat) (hcs : 0 < cs) :
    ∀ (fuel : Nat) (l : List PK), l.length < fuel → cs ∣ l.length →
      (pk_chunks_go cs fuel l).getLast? = some [] := by
  intro fuel
  induction fuel with
  | zero => intro l hl; omega
  | succ n ih =>
    intro l hl hdvd
    rw [pk_chunks_go]
    by_cases hc : (l.take cs).length = cs ∧ 0 < cs
    · rw [if_pos hc]
      have hcl : cs ≤ l.length := by
        have h1 := hc.1
        rw [List.length_take] at h1
        omega
      have hdrop : (l.drop cs).length < n := by
        rw [List.length_drop]
        omega
      have hdvd' : cs ∣ (l.drop cs).length := by
        rw [List.length_drop]
        exact Nat.dvd_sub' hdvd dvd_rfl
      rw [getLast?_cons_of_ne_nil _ _ (pk_chunks_go_ne_nil cs n (l.drop cs)),
        ih _ hdrop hdvd']
    · rw [if_neg hc]
      have hlt : l.length < cs := by
        rcases Decidable.not_and_iff_or_not.mp hc with h | h
        · rw [List.length_take] at h
          omega
        · omega
      have hzero : l.length = 0 := Nat.eq_zero_of_dvd_of_lt hdvd hlt
      have hnil : l = [] := List.length_eq_zero.mp hzero
      subst hnil
      simp

/-- Claim C10: for a positive page size and a duplicate-free stored key
sequence held fixed during iteration, `pk_chunks` yields a nonempty
finite list of pages, each of at most the page size, whose
concatenation is exactly the stored sequence (hence pairwise disjoint
with union the full key set), with exactly `l.length / cs + 1` pages,
and when the page size divides the number of keys the final page is
the one extra empty page. -/
theorem pk_chunks_spec (cs : Nat) (l : List PK) (hcs : 0 < cs)
    (hnd : l.Nodup) :
    pk_chunks cs l ≠ [] ∧
    (∀ p ∈ pk_chunks cs l, p.length ≤ cs) ∧
    (pk_chunks cs l).flatten = l ∧
    (pk_chunks cs l).Pairwise List.Disjoint ∧
    (pk_chunks cs l).length = l.length / cs + 1 ∧
    (cs ∣ l.length → (pk_chunks cs l).getLast? = some []) := by
  have hfuel : l.length < l.length + 1 := Nat.lt_succ_self _
  have hflat : (pk_chunks cs l).flatten = l :=
    pk_chunks_go_flatten cs hcs _ l hfuel
  refine ⟨pk_chunks_go_ne_nil cs _ l,
    fun p hp => pk_chunks_go_page_le cs _ l p hp,
    hflat, ?_, pk_chunks_go_length cs hcs _ l hfuel,
    fun hdvd => pk_chunks_go_getLast cs hcs _ l hfuel hdvd⟩
  have hnd' : (pk_chunks cs l).flatten.Nodup := by
    rw [hflat]; exact hnd
  exact (List.nodup_flatten.mp hnd').2

/-- Claim C10 witness: page size 2 over four distinct stored keys gives
pages of at most two keys flattening back to the store, three pages in
total, the last one empty. -/
theorem pk_chunks_spec_witness :
    pk_chunks 2 [[PyVal.vint 1], [PyVal.vint 2], [PyVal.vint 3],
        [PyVal.vint 4]] ≠ [] ∧
    (pk_chunks 2 [[PyVal.vint 1], [PyVal.vint 2], [PyVal.vint 3],
        [PyVal.vint 4]]).flatten =
      [[PyVal.vint 1], [PyVal.vint 2], [PyVal.vint 3], [PyVal.vint 4]] ∧
    (pk_chunks 2 [[PyVal.vint 1], [PyVal.vint 2], [PyVal.vint 3],
        [PyVal.vint 4]]).length = 3 ∧
    (pk_chunks 2 [[PyVal.vint 1], [PyVal.vint 2], [PyVal.vint 3],
        [PyVal.vint 4]]).getLast? = some [] := by
  have h := pk_chunks_spec 2
    [[PyVal.vint 1], [PyVal.vint 2], [PyVal.vint 3], [PyVal.vint 4]]
    (by decide) (by decide)
  exact ⟨h.1, h.2.2.1, h.2.2.2.2.1, h.2.2.2.2.2 (by decide)⟩

/-- A character of the regex class `\w` (the DDL scripts are ASCII). -/
def isWordChar (c : Char) : Bool := c.isAlphanum || c == '_'

/-- Consume one expected literal character. -/
def matchLit (c : Char) : List Char → Option (List Char)
  | [] => none
  | x :: xs => if x = c then some xs else none

/-- Consume a nonempty maximal run of word characters (the greedy
`\w+`; since a word character can never satisfy the following literal
of the patterns used here, the maximal run is the only viable one). -/
def takeWord (cs : List Char) : Option (List Char × List Char) :=
  let w := cs.takeWhile isWordChar
  if w.isEmpty then none else some (w, cs.dropWhile isWordChar)

/-- Match `SQL_FIELD_REGEX_1`, the pattern for a bracketed name, type
and parenthesized length, at the current position, returning the three
captured groups. -/
def matchField1At (cs : List Char) : Option (String × String × String) :=
  (matchLit '[' cs).bind fun cs1 =>
  (takeWord cs1).bind fun p1 =>
  (matchLit ']' p1.2).bind fun cs2 =>
  (matchLit ' ' cs2).bind fun cs3 =>
  (matchLit '[' cs3).bind fun cs4 =>
  (takeWord cs4).bind fun p2 =>
  (matchLit ']' p2.2).bind fun cs5 =>
  (matchLit '(' cs5).bind fun cs6 =>
  (takeWord cs6).bind fun p3 =>
  (matchLit ')' p3.2).map fun _ =>
  (String.mk p1.1, String.mk p2.1, String.mk p3.1)

/-- Match `SQL_FIELD_REGEX_2`, the pattern for a bracketed name and
type with no length, at the current position. -/
def matchField2At (cs : List Char) : Option (String × String) :=
  (matchLit '[' cs).bind fun cs1 =>
  (takeWord cs1).bind fun p1 =>
  (matchLit ']' p1.2).bind fun cs2 =>
  (matchLit ' ' cs2).bind fun cs3 =>
  (matchLit '[' cs3).bind fun cs4 =>
  (takeWord cs4).bind fun p2 =>
  (matchLit ']' p2.2).map fun _ =>
  (String.mk p1.1, String.mk p2.1)

/-- Match `SQL_FIELD_PKEY`, one bracketed word, at the current
position. -/
def matchPkeyAt (cs : List Char) : Option String :=
  (matchLit '[' cs).bind fun cs1 =>
  (takeWord cs1).bind fun p1 =>
  (matchLit ']' p1.2).map fun _ =>
  String.mk p1.1

/-- Match `SQL_FIELD_DEFAULT`, a lazily quantified quoted literal, at
the current position: an opening quote, then the shortest run up to
the next quote.  The group includes both quotes, as in the Python
pattern.  (Field lines contain no newline, having been split on
newlines, so the dot cannot meet one.) -/
def matchDefaultAt (cs : List Char) : Option String :=
  (matchLit '\'' cs).bind fun cs1 =>
  (matchLit '\'' (cs1.dropWhile (fun d => decide (d ≠ '\'')))).map fun _ =>
  String.mk ('\'' :: (cs1.takeWhile (fun d => decide (d ≠ '\'')) ++ ['\'']))

/-- `re.findall(...)[0]` for our patterns: the leftmost match, found by
trying every start position from the left. -/
def scanFirst {α : Type} (m : List Char → Option α) : List Char → Option α
  | [] => m []
  | c :: cs =>
    match m (c :: cs) with
    | some r => some r
    | none => scanFirst m cs

/-- Python `s.isdigit()` for the ASCII strings at hand: nonempty and
all decimal digits. -/
def pyIsDigit (s : String) : Bool :=
  !s.toList.isEmpty && s.toList.all Char.isDigit

/-- Python `int(s)` on a digit string. -/
def pyInt (s : String) : Nat :=
  s.toList.foldl (fun a c => a * 10 + (c.toNat - 48)) 0

/-- A Python exception escaping the DDL parser: `ValueError` with a
message, or the `IndexError` of indexing an empty `findall` result. -/
inductive PErr where
  | valueError (msg : String)
  | indexError
deriving DecidableEq, Repr

/-- The default-literal extraction shared by every field line
(schema_maker.py lines 52-59): take the first quoted literal if any,
strip the quotes, and coerce to `int` when the stripped text is all
digits, else keep the quoted text. -/
def defaultValueOf (cs : List Char) : PyVal :=
  match scanFirst matchDefaultAt cs with
  | none => PyVal.vnone
  | some d =>
    let stripped := String.mk (d.toList.filter (fun c => decide (c ≠ '\'')))
    if pyIsDigit stripped then PyVal.vint (Int.ofNat (pyInt stripped))
    else PyVal.vstr d

/-- `_get_field_data` (schema_maker.py lines 30-60).  Try the
with-length pattern first; on a match, a digit length becomes an `int`
and then the value must be an `int` or the token `max`
(case-insensitively), anything else raising
`ValueError("Unexpected field length ...")`.  With no match, the
no-length pattern is tried, its absence raising the `IndexError` of
`findall(...)[0]`.  The field name is lower-cased, the type kept
verbatim, and the default literal extracted afterwards. -/
def _get_field_data (sql_line : String) :
    Except PErr (String × String × PyVal × PyVal) :=
  match scanFirst matchField1At sql_line.toList with
  | some (n, t, len) =>
    if pyIsDigit len then
      Except.ok (strLower n, t, PyVal.vint (Int.ofNat (pyInt len)),
        defaultValueOf sql_line.toList)
    else if strLower len = "max" then
      Except.ok (strLower n, t, PyVal.vstr len, defaultValueOf sql_line.toList)
    else
      Except.error (PErr.valueError
        ("Unexpected field length for " ++ strUpper t ++ ": " ++ len))
  | none =>
    match scanFirst matchField2At sql_line.toList with
    | some (n, t) =>
      Except.ok (strLower n, t, PyVal.vnone, defaultValueOf sql_line.toList)
    | none => Except.error PErr.indexError

/-- `_get_pkey_field` (schema_maker.py lines 62-71):
`re.findall(SQL_FIELD_PKEY, sql_line)[0]`, raising `IndexError` when
the line has no bracketed word. -/
def _get_pkey_field (sql_line : String) : Except PErr String :=
  match scanFirst matchPkeyAt sql_line.toList with
  | some w => Except.ok w
  | none => Except.error PErr.indexError

/-- Python `text.split("\n")`, accumulator-based. -/
def splitLinesGo : List Char → List Char → List (List Char)
  | [], acc => [acc.reverse]
  | c :: cs, acc =>
    if c = '\n' then acc.reverse :: splitLinesGo cs []
    else splitLinesGo cs (c :: acc)

/-- Python `text.split("\n")`. -/
def splitLines (cs : List Char) : List (List Char) := splitLinesGo cs []

/-- The loop state of `parse_sql_table_fields`: the ordered field dict,
the collected primary-key names, and the two region flags (`startB`
models the Python local `start`, `endB` models `end`). -/
structure ParseState where
  field_data : List (String × (String × PyVal × PyVal))
  pkeys : List String
  startB : Bool
  endB : Bool
deriving DecidableEq, Repr

/-- The empty initial parse state. -/
def initParseState : ParseState := ParseState.mk [] [] false false

/-- Python dict assignment `d[k] = v`: overwrite in place when the key
exists (keeping its insertion position), else append. -/
def dictInsert (d : List (String × (String × PyVal × PyVal))) (k : String)
    (v : String × PyVal × PyVal) : List (String × (String × PyVal × PyVal)) :=
  if d.any (fun kv => decide (kv.1 = k)) then
    d.map (fun kv => if kv.1 = k then (k, v) else kv)
  else d ++ [(k, v)]

/-- One iteration of the line loop of `parse_sql_table_fields`
(schema_maker.py lines 111-130): the start marker opens the field
region, the end marker closes it and opens the key region, only
tab-indented lines inside a region are inspected, a field-region line
goes through `_get_field_data` into the dict, and a key-region line
contributes one lower-cased primary-key name.  (Both `if start` and
`if end` are separate statements in the source; after an end marker
they are mutually exclusive unless a later start marker reopens the
field region, which the sequential composition below reproduces.) -/
def parse_step (st : ParseState) (line : String) : Except PErr ParseState :=
  if strContains line "CREATE TABLE" then
    Except.ok { st with startB := true }
  else if strContains line "PRIMARY KEY CLUSTERED" then
    Except.ok { st with startB := false, endB := true }
  else if !(pyStartsWith line "\t") then
    Except.ok st
  else if !(st.startB || st.endB) then
    Except.ok st
  else
    match (if st.startB then
            match _get_field_data line with
            | Except.error e => Except.error e
            | Except.ok (n, t, len, dv) =>
              Except.ok { st with
                field_data := dictInsert st.field_data n (t, len, dv) }
           else Except.ok st) with
    | Except.error e => Except.error e
    | Except.ok st1 =>
      if st1.endB then
        match _get_pkey_field line with
        | Except.error e => Except.error e
        | Except.ok n =>
          Except.ok { st1 with pkeys := st1.pkeys ++ [strLower n] }
      else Except.ok st1

/-- The line loop of `parse_sql_table_fields` over the whole script. -/
def parse_sql_scan (text : String) : Except PErr ParseState :=
  ((splitLines text.toList).map String.mk).foldlM parse_step initParseState

/-- `parse_sql_table_fields` (schema_maker.py lines 106-135): run the
line loop, then fail with `ValueError("No primary keys found ...")`
when no primary-key names were collected, else return the field dict
and the key list. -/
def parse_sql_table_fields (text : String) :
    Except PErr (List (String × (String × PyVal × PyVal)) × List String) :=
  match parse_sql_scan text with
  | Except.error e => Except.error e
  | Except.ok st =>
    if st.pkeys.length = 0 then
      Except.error (PErr.valueError "No primary keys found")
    else
      Except.ok (st.field_data, st.pkeys)

/-- A minimal DDL script with one field line and one key line. -/
def sampleScript : String :=
  "CREATE TABLE\n\t[id] [INT]\nPRIMARY KEY CLUSTERED\n\t[id]"

/-- Claim C7: whenever `parse_sql_table_fields` returns at all, the
primary-key list it returns has length at least 1; and whenever the
line loop finishes with zero collected key names, the function raises
the `ValueError` instead of returning. -/
theorem parse_sql_table_fields_pk_spec :
    (∀ (text : String) (fd : List (String × (String × PyVal × PyVal)))
       (pks : List String),
      parse_sql_table_fields text = Except.ok (fd, pks) → 1 ≤ pks.length) ∧
    (∀ (text : String) (st : ParseState),
      parse_sql_scan text = Except.ok st → st.pkeys.length = 0 →
        parse_sql_table_fields text =
          Except.error (PErr.valueError "No primary keys found")) := by
  constructor
  · intro text fd pks h
    cases hscan : parse_sql_scan text with
    | error e =>
      rw [parse_sql_table_fields, hscan] at h
      simp at h
    | ok st =>
      rw [parse_sql_table_fields, hscan] at h
      by_cases hz : st.pkeys.length = 0
      · simp [hz] at h
      · simp [hz] at h
        rcases h with ⟨h1, h2⟩
        rw [← h2]
        omega
  · intro text st hscan hz
    rw [parse_sql_table_fields, hscan]
    simp [hz]

/-- Claim C7 witness: the sample script parses to one field and the
one-element key list, whose length is at least 1. -/
theorem parse_sql_table_fields_pk_witness :
    1 ≤ (["id"] : List String).length :=
  parse_sql_table_fields_pk_spec.1 sampleScript
    [("id", ("INT", PyVal.vnone, PyVal.vnone))] ["id"] (by decide)

/-- `takeWhile`/`dropWhile` split an all-satisfying run followed by a
failing character exactly at that character. -/
theorem takeWhile_append_stop (p : Char → Bool) :
    ∀ (w : List Char) (c : Char) (rest : List Char),
      (∀ a ∈ w, p a = true) → p c = false →
      (w ++ c :: rest).takeWhile p = w ∧
        (w ++ c :: rest).dropWhile p = c :: rest := by
  intro w
  induction w with
  | nil =>
    intro c rest hw hc
    simp [List.takeWhile_cons, List.dropWhile_cons, hc]
  | cons a t ih =>
    intro c rest hw hc
    have ha : p a = true := hw a (by simp)
    have ht := ih c rest (fun x hx => hw x (by simp [hx])) hc
    simp [List.takeWhile_cons, List.dropWhile_cons, ha, ht.1, ht.2]

/-- `takeWord` on a nonempty word run followed by a non-word character
captures exactly the run. -/
theorem takeWord_shape (w : List Char) (c : Char)
    (hne : w ≠ []) (hw : ∀ a ∈ w, isWordChar a = true)
    (hc : isWordChar c = false) :
    ∀ (rest : List Char), takeWord (w ++ c :: rest) = some (w, c :: rest) := by
  intro rest
  have h := takeWhile_append_stop isWordChar w c rest hw hc
  have hemp : w.isEmpty = false := by
    cases w with
    | nil => exact absurd rfl hne
    | cons a t => rfl
  rw [takeWord]
  simp [h.1, h.2, hemp]

/-- `matchLit` consumes its expected character. -/
theorem matchLit_eq (c : Char) (xs : List Char) :
    matchLit c (c :: xs) = some xs := by
  simp [matchLit]

/-- The with-length pattern matches a line of shape
`[w1] [w2](w3)...` at position 0 with the three captured words. -/
theorem matchField1At_shape (w1 w2 w3 rest : List Char)
    (h1 : w1 ≠ []) (hw1 : ∀ a ∈ w1, isWordChar a = true)
    (h2 : w2 ≠ []) (hw2 : ∀ a ∈ w2, isWordChar a = true)
    (h3 : w3 ≠ []) (hw3 : ∀ a ∈ w3, isWordChar a = true) :
    matchField1At ('[' :: (w1 ++ ']' :: ' ' :: '[' ::
        (w2 ++ ']' :: '(' :: (w3 ++ ')' :: rest)))) =
      some (String.mk w1, String.mk w2, String.mk w3) := by
  simp only [matchField1At, matchLit_eq, Option.some_bind,
    takeWord_shape w1 ']' h1 hw1 (by decide),
    takeWord_shape w2 ']' h2 hw2 (by decide),
    takeWord_shape w3 ')' h3 hw3 (by decide)]
  rfl

/-- A leftmost scan whose matcher already succeeds at position 0
returns that match. -/
theorem scanFirst_head {α : Type} (m : List Char → Option α)
    (cs : List Char) (r : α) (h : m cs = some r) :
    scanFirst m cs = some r := by
  cases cs with
  | nil => simpa [scanFirst] using h
  | cons c t => simp [scanFirst, h]

/-- A word character is not a quote. -/
theorem word_not_quote {c : Char} (h : isWordChar c = true) : c ≠ '\'' := by
  intro he
  rw [he] at h
  exact absurd h (by decide)

/-- The default-literal matcher fails at any position not starting
with a quote. -/
theorem matchDefaultAt_no_quote (c : Char) (cs : List Char)
    (hc : c ≠ '\'') : matchDefaultAt (c :: cs) = none := by
  simp [matchDefaultAt, matchLit, hc]

/-- A quote-free line has no default literal anywhere. -/
theorem scanFirst_default_none :
    ∀ (cs : List Char), (∀ c ∈ cs, c ≠ '\'') →
      scanFirst matchDefaultAt cs = none := by
  intro cs
  induction cs with
  | nil => intro h; rfl
  | cons c t ih =>
    intro h
    rw [scanFirst, matchDefaultAt_no_quote c t (h c (by simp))]
    exact ih (fun x hx => h x (by simp [hx]))

/-- Claim C8 counterexample: a parenthesized length that is neither a
decimal integer nor `max` does NOT always raise the fatal error: a
value such as `1.5` or `-5` is not a word token, so the with-length
pattern never matches, the no-length pattern matches the leading
`[foo] [VARCHAR]`, and `_get_field_data` returns successfully with
length none instead of raising `Unexpected field length`. -/
theorem get_field_data_nonword_length_no_error :
    _get_field_data "[foo] [VARCHAR](1.5)" =
      Except.ok ("foo", "VARCHAR", PyVal.vnone, PyVal.vnone) := by
  decide

/-- Claim C8 (amended): on a field line `[foo] [VARCHAR](w)` whose
parenthesized token `w` is a nonempty word-character (`\w+`) token,
`_get_field_data` yields the integer value of `w` when `w` is all
digits, the token itself (as a string) when `w` lower-cases to `max`,
and the fatal `Unexpected field length` `ValueError` otherwise; on the
no-length line `[foo] [INT]` it yields length none; and a
parenthesized value that is not a pure word token (such as `-5`) never
matches the with-length pattern, so the line silently parses via the
no-length shape to length none with no error. -/
theorem get_field_data_length_spec :
    (∀ (w3 : List Char), w3 ≠ [] → (∀ c ∈ w3, isWordChar c = true) →
      _get_field_data (String.mk
        ('[' :: 'f' :: 'o' :: 'o' :: ']' :: ' ' :: '[' :: 'V' :: 'A' :: 'R' ::
         'C' :: 'H' :: 'A' :: 'R' :: ']' :: '(' :: (w3 ++ [')']))) =
        (if pyIsDigit (String.mk w3) then
          Except.ok ("foo", "VARCHAR",
            PyVal.vint (Int.ofNat (pyInt (String.mk w3))), PyVal.vnone)
        else if strLower (String.mk w3) = "max" then
          Except.ok ("foo", "VARCHAR", PyVal.vstr (String.mk w3), PyVal.vnone)
        else
          Except.error (PErr.valueError
            ("Unexpected field length for VARCHAR: " ++ String.mk w3)))) ∧
    _get_field_data "[foo] [INT]" =
      Except.ok ("foo", "INT", PyVal.vnone, PyVal.vnone) ∧
    _get_field_data "[foo] [VARCHAR](-5)" =
      Except.ok ("foo", "VARCHAR", PyVal.vnone, PyVal.vnone) := by
  refine ⟨?_, by decide, by decide⟩
  · intro w3 hne hw
    have hm : matchField1At
        ('[' :: 'f' :: 'o' :: 'o' :: ']' :: ' ' :: '[' :: 'V' :: 'A' :: 'R' ::
         'C' :: 'H' :: 'A' :: 'R' :: ']' :: '(' :: (w3 ++ [')'])) =
        some ("foo", "VARCHAR", String.mk w3) :=
      matchField1At_shape ['f', 'o', 'o'] ['V', 'A', 'R', 'C', 'H', 'A', 'R']
        w3 [] (by decide) (by decide) (by decide) (by decide) hne hw
    have hscan : scanFirst matchField1At
        ((String.mk
          ('[' :: 'f' :: 'o' :: 'o' :: ']' :: ' ' :: '[' :: 'V' :: 'A' :: 'R' ::
           'C' :: 'H' :: 'A' :: 'R' :: ']' :: '(' :: (w3 ++ [')']))).toList) =
        some ("foo", "VARCHAR", String.mk w3) :=
      scanFirst_head _ _ _ hm
    have hnq : ∀ c ∈ ('[' :: 'f' :: 'o' :: 'o' :: ']' :: ' ' :: '[' :: 'V' ::
        'A' :: 'R' :: 'C' :: 'H' :: 'A' :: 'R' :: ']' :: '(' ::
        (w3 ++ [')'])), c ≠ '\'' := by
      intro c hc
      have hc' : c ∈ (['[', 'f', 'o', 'o', ']', ' ', '[', 'V', 'A', 'R', 'C',
          'H', 'A', 'R', ']', '('] : List Char) ++ (w3 ++ [')']) := hc
      rcases List.mem_append.mp hc' with hP | hR
      · have hall : ∀ x ∈ (['[', 'f', 'o', 'o', ']', ' ', '[', 'V', 'A', 'R',
            'C', 'H', 'A', 'R', ']', '('] : List Char), x ≠ '\'' := by decide
        exact hall c hP
      · rcases List.mem_append.mp hR with hw3 | hr
        · exact word_not_quote (hw c hw3)
        · have hc2 : c = ')' := by simpa using hr
          rw [hc2]
          decide
    have hdef : scanFirst matchDefaultAt
        ((String.mk
          ('[' :: 'f' :: 'o' :: 'o' :: ']' :: ' ' :: '[' :: 'V' :: 'A' :: 'R' ::
           'C' :: 'H' :: 'A' :: 'R' :: ']' :: '(' :: (w3 ++ [')']))).toList) =
        none :=
      scanFirst_default_none _ hnq
    rw [_get_field_data, hscan]
    simp only [defaultValueOf, hdef]
    rfl

/-- Claim C8 witness: concrete lines of each shape -- length 50 parses
to the integer 50, `max` stays the token, `bogus` is the fatal error,
and the lengthless line has length none. -/
theorem get_field_data_length_witness :
    _get_field_data "[foo] [VARCHAR](50)" =
      Except.ok ("foo", "VARCHAR", PyVal.vint 50, PyVal.vnone) ∧
    _get_field_data "[foo] [VARCHAR](max)" =
      Except.ok ("foo", "VARCHAR", PyVal.vstr "max", PyVal.vnone) ∧
    _get_field_data "[foo] [VARCHAR](MAX)" =
      Except.ok ("foo", "VARCHAR", PyVal.vstr "MAX", PyVal.vnone) ∧
    _get_field_data "[foo] [VARCHAR](bogus)" =
      Except.error
        (PErr.valueError "Unexpected field length for VARCHAR: bogus") := by
  refine ⟨?_, ?_, ?_, ?_⟩
  · have h := get_field_data_length_spec.1 ['5', '0'] (by decide) (by decide)
    rw [show ("[foo] [VARCHAR](50)" : String) = String.mk
      ('[' :: 'f' :: 'o' :: 'o' :: ']' :: ' ' :: '[' :: 'V' :: 'A' :: 'R' ::
       'C' :: 'H' :: 'A' :: 'R' :: ']' :: '(' :: (['5', '0'] ++ [')']))
      from rfl, h]
    decide
  · have h := get_field_data_length_spec.1 ['m', 'a', 'x'] (by decide)
      (by decide)
    rw [show ("[foo] [VARCHAR](max)" : String) = String.mk
      ('[' :: 'f' :: 'o' :: 'o' :: ']' :: ' ' :: '[' :: 'V' :: 'A' :: 'R' ::
       'C' :: 'H' :: 'A' :: 'R' :: ']' :: '(' :: (['m', 'a', 'x'] ++ [')']))
      from rfl, h]
    decide
  · have h := get_field_data_length_spec.1 ['M', 'A', 'X'] (by decide)
      (by decide)
    rw [show ("[foo] [VARCHAR](MAX)" : String) = String.mk
      ('[' :: 'f' :: 'o' :: 'o' :: ']' :: ' ' :: '[' :: 'V' :: 'A' :: 'R' ::
       'C' :: 'H' :: 'A' :: 'R' :: ']' :: '(' :: (['M', 'A', 'X'] ++ [')']))
      from rfl, h]
    decide
  · have h := get_field_data_length_spec.1 ['b', 'o', 'g', 'u', 's']
      (by decide) (by decide)
    rw [show ("[foo] [VARCHAR](bogus)" : String) = String.mk
      ('[' :: 'f' :: 'o' :: 'o' :: ']' :: ' ' :: '[' :: 'V' :: 'A' :: 'R' ::
       'C' :: 'H' :: 'A' :: 'R' :: ']' :: '(' :: (['b', 'o', 'g', 'u', 's'] ++
       [')'])) from rfl, h]
    decide
